import Mathlib

/-
Verification development for the dynamic GraphQL query layer
(src/src/graphql/schema.ts), the type-mapping repository
(src/unnamed/part_003), and the ontology changelist repository
(src/src/data_access_layer/.../changelist_repository.ts, src/unnamed/part_001,
src/unnamed/part_002) of this repository.
-/

/-! ## String splitting as performed by the JavaScript source

breakQuery in schema.ts calls query.split(" "), which splits on single
space characters only. splitSpace mirrors that behaviour on character
lists: the empty string yields one empty component, and every separator
produces a component boundary, including empty components for adjacent
separators. -/

def splitSpace : List Char → List (List Char)
  | [] => [[]]
  | c :: rest =>
    if c = ' ' then [] :: splitSpace rest
    else
      match splitSpace rest with
      | [] => [[c]]
      | t :: ts => (c :: t) :: ts

/-- joinSpace mirrors JavaScript Array.prototype.join(" "). -/
def joinSpace : List (List Char) → List Char
  | [] => []
  | [t] => t
  | t :: ts => t ++ ' ' :: joinSpace ts

theorem splitSpace_ne_nil (l : List Char) : splitSpace l ≠ [] := by
  cases l with
  | nil => simp [splitSpace]
  | cons c rest =>
    simp only [splitSpace]
    by_cases h : c = ' '
    · simp [h]
    · simp only [if_neg h]
      cases hs : splitSpace rest with
      | nil => simp
      | cons t ts => simp

theorem joinSpace_splitSpace (l : List Char) : joinSpace (splitSpace l) = l := by
  induction l with
  | nil => rfl
  | cons c rest ih =>
    simp only [splitSpace]
    by_cases h : c = ' '
    · subst h
      simp only [if_pos rfl]
      cases hs : splitSpace rest with
      | nil => exact absurd hs (splitSpace_ne_nil rest)
      | cons t ts =>
        rw [hs] at ih
        simp [joinSpace, ih]
    · simp only [if_neg h]
      cases hs : splitSpace rest with
      | nil => exact absurd hs (splitSpace_ne_nil rest)
      | cons t ts =>
        rw [hs] at ih
        cases ts with
        | nil => simp_all [joinSpace]
        | cons u us => simp_all [joinSpace]

/-! ## breakQuery (schema.ts lines 506-517) -/

/-- Operator tokens recognized by breakQuery. -/
def operatorTokens : List String := ["eq", "neq", "like", "in", "<", ">"]

/-- breakQuery from schema.ts: split the query on single spaces; when the
first part is not a recognized operator return eq together with the whole
string, otherwise return the operator and the remaining parts re-joined
with single spaces. -/
def breakQuery (query : String) : List String :=
  let parts := splitSpace query.data
  let first := List.asString (parts.headD [])
  if !(operatorTokens.contains first) then ["eq", query]
  else [first, List.asString (joinSpace parts.tail)]

/-- First component of the space-split of a string, as the source computes it. -/
def firstSpaceTok (s : String) : String :=
  List.asString ((splitSpace s.data).headD [])

/-- Everything after the first space-split component, re-joined with spaces. -/
def restAfterFirst (s : String) : String :=
  List.asString (joinSpace (splitSpace s.data).tail)

/-- Splitter on arbitrary whitespace characters, used only to state the
claim exactly as written (first whitespace-delimited token). -/
def splitWs : List Char → List (List Char)
  | [] => [[]]
  | c :: rest =>
    if c.isWhitespace then [] :: splitWs rest
    else
      match splitWs rest with
      | [] => [[c]]
      | t :: ts => (c :: t) :: ts

/-- First whitespace-delimited token of a string (empty components dropped). -/
def wsFirstTok (s : String) : String :=
  List.asString (((splitWs s.data).filter (fun t => !t.isEmpty)).headD [])

/-- The claim of C2, rendered exactly: when the first whitespace-delimited
token is a recognized operator, breakQuery returns that operator together
with the remainder of the string (what follows the operator and one
whitespace delimiter); otherwise it returns eq with the entire string. -/
def claimC2At (s : String) : Prop :=
  if operatorTokens.contains (wsFirstTok s) = true then
    ∃ rest, breakQuery s = [wsFirstTok s, rest] ∧
      ((∃ w : Char, w.isWhitespace = true ∧
          s = wsFirstTok s ++ String.singleton w ++ rest) ∨
        (s = wsFirstTok s ∧ rest = ""))
  else breakQuery s = ["eq", s]

theorem asString_data (s : String) : List.asString s.data = s := rfl

theorem asString_append_space (t r : List Char) :
    List.asString t ++ " " ++ List.asString r = List.asString (t ++ ' ' :: r) := by
  show List.asString ((t ++ [' ']) ++ r) = List.asString (t ++ ' ' :: r)
  rw [List.append_assoc]
  rfl

theorem length_singleton_char (c : Char) : (String.singleton c).length = 1 := rfl

/-- C2, corrected. breakQuery splits on single ASCII space characters, not on
arbitrary whitespace: when the first space-delimited part is a recognized
operator the result is that operator together with the remainder of the
string (what follows the operator and one space, spaces preserved), and
otherwise the result is eq with the entire string; in particular
breakQuery "eq 5" = [eq, 5], breakQuery "42" = [eq, 42] and
breakQuery "like %foo%" = [like, %foo%]. -/
theorem breakQuery_amended (s : String) :
    (operatorTokens.contains (firstSpaceTok s) = true →
        breakQuery s = [firstSpaceTok s, restAfterFirst s]) ∧
    (operatorTokens.contains (firstSpaceTok s) = false →
        breakQuery s = ["eq", s]) ∧
    (s = firstSpaceTok s ∧ restAfterFirst s = "" ∨
      s = firstSpaceTok s ++ " " ++ restAfterFirst s) := by
  refine ⟨?_, ?_, ?_⟩
  · intro h
    simp [breakQuery, firstSpaceTok, restAfterFirst] at h ⊢
    simp [h]
  · intro h
    simp [breakQuery, firstSpaceTok] at h ⊢
    simp [h]
  · rcases hs : splitSpace s.data with _ | ⟨t, ts⟩
    · exact absurd hs (splitSpace_ne_nil _)
    · have hj := joinSpace_splitSpace s.data
      rw [hs] at hj
      cases ts with
      | nil =>
        left
        simp only [joinSpace] at hj
        constructor
        · rw [firstSpaceTok, hs]
          simp only [List.headD_cons]
          rw [hj]
          rfl
        · rw [restAfterFirst, hs]
          rfl
      | cons u us =>
        right
        simp only [joinSpace] at hj
        rw [firstSpaceTok, restAfterFirst, hs]
        simp only [List.headD_cons, List.tail_cons]
        rw [asString_append_space]
        rw [hj]
        rfl

/-- C2 witness: the amended theorem applied at the concrete input from the
spec, yielding the documented example output. -/
theorem breakQuery_amended_witness : breakQuery "like %foo%" = ["like", "%foo%"] := by
  have h := (breakQuery_amended "like %foo%").1
  rw [show firstSpaceTok "like %foo%" = "like" from rfl,
    show restAfterFirst "like %foo%" = "%foo%" from rfl] at h
  exact h (by decide)

/-- C2 counterexample: the claim as stated quantifies over whitespace-delimited
tokens, but the source splits on single spaces only; on the tab-separated
input the first whitespace-delimited token is the recognized operator eq, yet
breakQuery returns eq together with the entire original string instead of the
remainder after the operator. -/
theorem breakQuery_whitespace_cex : ¬ claimC2At "eq\t5" := by
  intro hc
  rw [claimC2At] at hc
  rw [show wsFirstTok "eq\t5" = "eq" from rfl] at hc
  rw [if_pos (show operatorTokens.contains "eq" = true by decide)] at hc
  obtain ⟨rest, hbq, hd⟩ := hc
  rw [show breakQuery "eq\t5" = ["eq", "eq\t5"] from rfl] at hbq
  have hrest : rest = "eq\t5" := by
    have := List.cons.inj hbq
    exact (List.cons.inj this.2).1.symm
  subst hrest
  rcases hd with ⟨w, hw, he⟩ | ⟨h2, h3⟩
  · have hl := congrArg String.length he
    rw [String.length_append, String.length_append, length_singleton_char] at hl
    rw [show ("eq\t5" : String).length = 4 from rfl, show ("eq" : String).length = 2 from rfl] at hl
    omega
  · exact absurd h2 (by decide)

/-! ## Name sanitization -/

/-- Character admissible inside a schema identifier. -/
def identChar (c : Char) : Bool := c = '_' || c.isAlpha || c.isDigit

/-- Modelled from the spec: stringToValidPropertyName (imported by schema.ts
from services/utilities, which is not under src) must deterministically turn
any ontology name into an identifier matching regex underscore-letter head and
underscore-letter-digit tail. The model replaces each invalid character with
an underscore and prepends an underscore when the first character is not a
letter or underscore. -/
def stringToValidPropertyName (s : String) : String :=
  let mapped := List.asString (s.data.map (fun c => if identChar c then c else '_'))
  match s.data with
  | [] => "_"
  | c :: _ => if c.isAlpha || c = '_' then mapped else "_" ++ mapped

/-! ## The data-type switch of the schema generator (schema.ts lines 201-268
and 435-502) -/

/-- Schema-level type produced for a metatype key. -/
inductive GqlType where
  | float
  | boolean
  | string
  | listJSON
  | enum (name : String) (values : List String)
  deriving DecidableEq, Repr

/-- Metatype key as used by the schema generator. -/
structure MetatypeKey where
  name : String
  property_name : String
  data_type : String
  options : Option (List String)
  deriving DecidableEq, Repr

/-- Key set of a JavaScript object built by successive assignments: duplicate
assignments collapse, first occurrence fixes the position. -/
def jsObjectKeys (l : List String) : List String :=
  l.foldl (fun acc o => if o ∈ acc then acc else acc ++ [o]) []

/-- Output field type for a metatype key (schema.ts lines 211-267). The source
switch arm written as case string-or-date-or-file evaluates in JavaScript to a
single case on the string literal, so date and file fall through to the
default arm, which is also the string type; the embedding therefore tests the
five literals in order and maps everything else to string. -/
def outputTypeForKey (metatypeName : String) (k : MetatypeKey) : GqlType :=
  if k.data_type = "number" then GqlType.float
  else if k.data_type = "boolean" then GqlType.boolean
  else if k.data_type = "string" then GqlType.string
  else if k.data_type = "list" then GqlType.listJSON
  else if k.data_type = "enumeration" then
    GqlType.enum (stringToValidPropertyName (metatypeName ++ "_" ++ k.name ++ "_Enum_TypeA"))
      (jsObjectKeys (k.options.getD []))
  else GqlType.string

/-- Filter input field type for a metatype key (schema.ts lines 441-498,
inputFieldsForMetatype); identical to the output mapping except for the enum
type-name suffix. -/
def inputTypeForKey (metatypeName : String) (k : MetatypeKey) : GqlType :=
  if k.data_type = "number" then GqlType.float
  else if k.data_type = "boolean" then GqlType.boolean
  else if k.data_type = "string" then GqlType.string
  else if k.data_type = "list" then GqlType.listJSON
  else if k.data_type = "enumeration" then
    GqlType.enum (stringToValidPropertyName (metatypeName ++ "_" ++ k.name ++ "_Enum_Type_B"))
      (jsObjectKeys (k.options.getD []))
  else GqlType.string

/-- Name of the generated enum type, when the field type is an enum. -/
def gqlEnumName : GqlType → Option String
  | GqlType.enum n _ => some n
  | _ => none

/-- C3, confirmed: the generated schema field type follows the declared
data-type mapping in both the output object fields and the filter input
fields; number maps to float, boolean to boolean, string, date and file to
string, list to a list of arbitrary JSON, and enumeration to a generated enum
type whose name is derived from the owning metatype name and key name and is
independent of the option values. -/
theorem metatype_key_type_mapping (m : String) (k : MetatypeKey) :
    (k.data_type = "number" →
        outputTypeForKey m k = GqlType.float ∧ inputTypeForKey m k = GqlType.float) ∧
    (k.data_type = "boolean" →
        outputTypeForKey m k = GqlType.boolean ∧ inputTypeForKey m k = GqlType.boolean) ∧
    (k.data_type = "string" ∨ k.data_type = "date" ∨ k.data_type = "file" →
        outputTypeForKey m k = GqlType.string ∧ inputTypeForKey m k = GqlType.string) ∧
    (k.data_type = "list" →
        outputTypeForKey m k = GqlType.listJSON ∧ inputTypeForKey m k = GqlType.listJSON) ∧
    (k.data_type = "enumeration" →
        outputTypeForKey m k =
          GqlType.enum (stringToValidPropertyName (m ++ "_" ++ k.name ++ "_Enum_TypeA"))
            (jsObjectKeys (k.options.getD [])) ∧
        inputTypeForKey m k =
          GqlType.enum (stringToValidPropertyName (m ++ "_" ++ k.name ++ "_Enum_Type_B"))
            (jsObjectKeys (k.options.getD []))) ∧
    (∀ opts : Option (List String),
        gqlEnumName (outputTypeForKey m { k with options := opts }) =
          gqlEnumName (outputTypeForKey m k) ∧
        gqlEnumName (inputTypeForKey m { k with options := opts }) =
          gqlEnumName (inputTypeForKey m k)) := by
  refine ⟨?_, ?_, ?_, ?_, ?_, ?_⟩
  · intro h; simp [outputTypeForKey, inputTypeForKey, h]
  · intro h; simp [outputTypeForKey, inputTypeForKey, h]
  · rintro (h | h | h) <;> simp [outputTypeForKey, inputTypeForKey, h]
  · intro h; simp [outputTypeForKey, inputTypeForKey, h]
  · intro h; simp [outputTypeForKey, inputTypeForKey, h]
  · intro opts
    simp only [outputTypeForKey, inputTypeForKey]
    by_cases h1 : k.data_type = "number" <;>
      by_cases h2 : k.data_type = "boolean" <;>
        by_cases h3 : k.data_type = "string" <;>
          by_cases h4 : k.data_type = "list" <;>
            by_cases h5 : k.data_type = "enumeration" <;>
              simp [h1, h2, h3, h4, h5, gqlEnumName]

/-- C3 witness: the type-mapping theorem applied to a concrete enumeration key
on a concrete metatype. -/
theorem metatype_key_type_mapping_witness :
    outputTypeForKey "Pump"
        { name := "status", property_name := "status", data_type := "enumeration",
          options := some ["on", "off"] } =
      GqlType.enum (stringToValidPropertyName ("Pump" ++ "_" ++ "status" ++ "_Enum_TypeA"))
        (jsObjectKeys ["on", "off"]) := by
  exact ((metatype_key_type_mapping "Pump"
    { name := "status", property_name := "status", data_type := "enumeration",
      options := some ["on", "off"] }).2.2.2.2.1 rfl).1

/-! ## Relationship-pair grouping (schema.ts lines 57-85)

The generator splits each pair name on the separator " : ", sanitizes the
three parts and inserts the triple into a nested object keyed
origin-relationship-destination, once forward and once reversed. The nested
object is embedded as its membership function. -/

/-- JavaScript String.prototype.split with the three-character separator
" : ": scan left to right, start a new component at every non-overlapping
separator occurrence. -/
def splitColon : List Char → List (List Char)
  | ' ' :: ':' :: ' ' :: rest => [] :: splitColon rest
  | c :: rest =>
    match splitColon rest with
    | [] => [[c]]
    | t :: ts => (c :: t) :: ts
  | [] => [[]]

def splitPairName (s : String) : List String := (splitColon s.data).map List.asString

def PairLookup : Type := String → String → String → Bool

def emptyLookup : PairLookup := fun _ _ _ => false

def insertPairTriple (m : PairLookup) (o r d : String) : PairLookup :=
  fun x y z => if x = o ∧ y = r ∧ z = d then true else m x y z

/-- Processing of one pair name (loop body, schema.ts lines 59-83). Indexing
past the end of the JavaScript split result is undefined; the embedding
totalizes it with the empty string, and the grouping theorem only concerns
names that split into exactly three parts. -/
def addPairToLookup (m : PairLookup) (pairName : String) : PairLookup :=
  insertPairTriple
    (insertPairTriple m (stringToValidPropertyName ((splitPairName pairName).getD 0 ""))
      (stringToValidPropertyName ((splitPairName pairName).getD 1 ""))
      (stringToValidPropertyName ((splitPairName pairName).getD 2 "")))
    (stringToValidPropertyName ((splitPairName pairName).getD 2 ""))
    (stringToValidPropertyName ((splitPairName pairName).getD 1 ""))
    (stringToValidPropertyName ((splitPairName pairName).getD 0 ""))

def buildPairLookup (pairNames : List String) : PairLookup :=
  pairNames.foldl addPairToLookup emptyLookup

theorem insertPairTriple_preserve (m : PairLookup) (o r d x y z : String)
    (h : m x y z = true) : insertPairTriple m o r d x y z = true := by
  rw [insertPairTriple]
  split <;> simp [h]

theorem insertPairTriple_self (m : PairLookup) (o r d : String) :
    insertPairTriple m o r d o r d = true := by
  rw [insertPairTriple]
  simp

theorem addPairToLookup_preserve (m : PairLookup) (nm x y z : String)
    (h : m x y z = true) : addPairToLookup m nm x y z = true := by
  unfold addPairToLookup
  exact insertPairTriple_preserve _ _ _ _ _ _ _ (insertPairTriple_preserve _ _ _ _ _ _ _ h)

theorem foldl_addPair_preserve (pairNames : List String) (m : PairLookup)
    (x y z : String) (h : m x y z = true) :
    List.foldl addPairToLookup m pairNames x y z = true := by
  induction pairNames generalizing m with
  | nil => exact h
  | cons p ps ih => exact ih _ (addPairToLookup_preserve _ _ _ _ _ h)

theorem addPairToLookup_adds (m : PairLookup) (nm A rel B : String)
    (hsplit : splitPairName nm = [A, rel, B]) :
    addPairToLookup m nm (stringToValidPropertyName A) (stringToValidPropertyName rel)
        (stringToValidPropertyName B) = true ∧
      addPairToLookup m nm (stringToValidPropertyName B) (stringToValidPropertyName rel)
        (stringToValidPropertyName A) = true := by
  unfold addPairToLookup
  rw [hsplit]
  simp only [List.getD]
  constructor
  · exact insertPairTriple_preserve _ _ _ _ _ _ _ (insertPairTriple_self _ _ _ _)
  · exact insertPairTriple_self _ _ _ _

theorem foldl_addPair_mem (pairNames : List String) (m : PairLookup)
    (nm A rel B : String) (hmem : nm ∈ pairNames)
    (hsplit : splitPairName nm = [A, rel, B]) :
    List.foldl addPairToLookup m pairNames (stringToValidPropertyName A)
        (stringToValidPropertyName rel) (stringToValidPropertyName B) = true ∧
      List.foldl addPairToLookup m pairNames (stringToValidPropertyName B)
        (stringToValidPropertyName rel) (stringToValidPropertyName A) = true := by
  induction pairNames generalizing m with
  | nil => cases hmem
  | cons p ps ih =>
    rw [List.foldl_cons]
    rcases List.mem_cons.mp hmem with h | h
    · subst h
      have hadd := addPairToLookup_adds m nm A rel B hsplit
      exact ⟨foldl_addPair_preserve ps _ _ _ _ hadd.1,
        foldl_addPair_preserve ps _ _ _ _ hadd.2⟩
    · exact ih (addPairToLookup m p) h

/-- C4, confirmed: every relationship pair whose name splits as origin,
relationship, destination on the reserved separator appears in the grouping
structure both under the forward lookup (origin, relationship, destination)
and under the reverse lookup (destination, relationship, origin), with all
three components sanitized. -/
theorem pair_forward_reverse (pairNames : List String) (nm A rel B : String)
    (hmem : nm ∈ pairNames) (hsplit : splitPairName nm = [A, rel, B]) :
    buildPairLookup pairNames (stringToValidPropertyName A) (stringToValidPropertyName rel)
        (stringToValidPropertyName B) = true ∧
      buildPairLookup pairNames (stringToValidPropertyName B) (stringToValidPropertyName rel)
        (stringToValidPropertyName A) = true :=
  foldl_addPair_mem pairNames emptyLookup nm A rel B hmem hsplit

/-- C4 witness: the grouping theorem applied to the concrete pair from the
spec scenario, in both traversal directions. -/
theorem pair_forward_reverse_witness :
    buildPairLookup ["Pump : feeds : Tank"] (stringToValidPropertyName "Pump")
        (stringToValidPropertyName "feeds") (stringToValidPropertyName "Tank") = true ∧
      buildPairLookup ["Pump : feeds : Tank"] (stringToValidPropertyName "Tank")
        (stringToValidPropertyName "feeds") (stringToValidPropertyName "Pump") = true :=
  pair_forward_reverse ["Pump : feeds : Tank"] "Pump : feeds : Tank" "Pump" "feeds" "Tank"
    (by simp) (by decide)

/-! ## The metatype resolver (schema.ts lines 304-432)

The resolver builds a node-repository query from the field arguments: base
container and metatype predicates, then the reserved record argument, then
the reserved relationship argument (an edge lookup whose outcome decides
between an id-in predicate and the impossible id-equals-zero predicate), then
one property predicate per remaining argument key, and finally executes the
query with a hard limit of 10000. -/

structure Metatype where
  id : String
  name : String
  description : String
  keys : Option (List MetatypeKey)
  deriving DecidableEq

structure GEdge where
  origin_id : Nat
  deriving DecidableEq

structure GNode where
  id : Nat
  container_id : String
  metatype_id : String
  metatype_name : String
  data_source_id : String
  original_data_id : String
  (import_data_id : String)
  metadata : String
  created_at : Option String
  created_by : String
  modified_at : Option String
  modified_by : String
  properties : List (String × String)
  deriving DecidableEq

/-- Value passed to the id predicate of the node repository: the list of edge
origin ids on the in branch, the number zero on the impossible-match branch. -/
inductive IdArg where
  | idList (ids : List Nat)
  | idNum (n : Nat)
  deriving DecidableEq

/-- One chained predicate of the node repository builder. -/
inductive NodeFilter where
  | containerIDF (op : String) (v : String)
  | metatypeIDF (op : String) (v : String)
  | dataSourceIDF (op : String) (v : String)
  | originalDataIDF (op : String) (v : String)
  | importDataIDF (op : String) (v : String)
  | idF (op : String) (arg : IdArg)
  | propertyF (name : String) (op : String) (v : String) (dataType : String)
  deriving DecidableEq

/-- The reserved record argument (record_input, schema.ts lines 91-100). A
field with value none stands for an absent or JavaScript-falsy value. -/
structure RecordFilterInput where
  data_source_id : Option String
  original_id : Option String
  (import_id : Option String)
  limit : Nat
  page : Nat
  deriving DecidableEq

/-- Field arguments of one resolver invocation. The relationship argument is
a JavaScript object from which the resolver reads only the first relationship
key and the first destination key of its first array element (schema.ts lines
334-335), so the embedding carries exactly that pair; propertyArgs are the
remaining argument keys with their raw string values, in iteration order. -/
structure ResolverInput where
  record : Option RecordFilterInput
  relationship : Option (String × String)
  propertyArgs : List (String × String)
  deriving DecidableEq

/-- JavaScript String.prototype.replace with a plain string pattern replaces
only the first occurrence; the resolver calls relationship.replace on an
underscore with a space (schema.ts line 339). -/
def replaceFirstUnderscoreAux : List Char → List Char
  | [] => []
  | c :: rest => if c = '_' then ' ' :: rest else c :: replaceFirstUnderscoreAux rest

def replaceFirstUnderscore (s : String) : String :=
  List.asString (replaceFirstUnderscoreAux s.data)

/-- propertyMap built from the metatype keys (schema.ts lines 358-370):
JavaScript object assignment means the last key wins on a sanitized-name
collision. -/
def propertyMapLookup (keys : List MetatypeKey) (k : String) : Option (String × String) :=
  (keys.reverse.find? (fun mk => stringToValidPropertyName mk.property_name = k)).map
    (fun mk => (mk.property_name, mk.data_type))

/-- Query filters built by one resolver invocation (schema.ts lines 306-379).
findByRelationship stands for the edge repository call; an unknown property
argument key would make the JavaScript crash on an undefined lookup, which
the embedding totalizes with empty strings. -/
def resolverFilters (containerID : String) (mt : Metatype)
    (findByRelationship : String → String → String → List GEdge)
    (input : ResolverInput) : List NodeFilter :=
  [NodeFilter.containerIDF "eq" containerID, NodeFilter.metatypeIDF "eq" mt.id] ++
    (match input.record with
      | none => []
      | some r =>
        (match r.data_source_id with
          | none => []
          | some v =>
            [NodeFilter.dataSourceIDF ((breakQuery v).getD 0 "") ((breakQuery v).getD 1 "")]) ++
          (match r.original_id with
            | none => []
            | some v =>
              [NodeFilter.originalDataIDF ((breakQuery v).getD 0 "") ((breakQuery v).getD 1 "")]) ++
          (match r.import_id with
            | none => []
            | some v =>
              [NodeFilter.importDataIDF ((breakQuery v).getD 0 "") ((breakQuery v).getD 1 "")])) ++
    (match input.relationship with
      | none => []
      | some (rel, dest) =>
        let edges := findByRelationship mt.name (replaceFirstUnderscore rel) dest
        if edges.length ≠ 0 then [NodeFilter.idF "in" (IdArg.idList (edges.map GEdge.origin_id))]
        else [NodeFilter.idF "eq" (IdArg.idNum 0)]) ++
    input.propertyArgs.map (fun kv =>
      let pm := (propertyMapLookup (mt.keys.getD []) kv.1).getD ("", "")
      NodeFilter.propertyF pm.1 ((breakQuery kv.2).getD 0 "") ((breakQuery kv.2).getD 1 "") pm.2)

/-- Modelled from the spec: id-predicate evaluation of the node repository
(node_repository is not under src; section 6 lists the builder predicate
id(operator, value)). Only the two operator and argument combinations the
resolver emits are given semantics: equality against the numeric value and
membership in the id list. -/
def idArgMatches (nid : Nat) (op : String) (a : IdArg) : Bool :=
  match op, a with
  | "eq", IdArg.idNum n => nid = n
  | "in", IdArg.idList ids => ids.contains nid
  | _, _ => false

/-- Modelled from the spec: predicate evaluation of the node repository query
builder (section 6), with the scalar comparison semantics opSem and the typed
property comparison semantics propSem left abstract since no claim depends on
them; chained predicates combine with AND. -/
def nodeMatches (opSem : String → String → String → Bool)
    (propSem : String → String → String → String → Bool) (n : GNode) : NodeFilter → Bool
  | NodeFilter.containerIDF op v => opSem op n.container_id v
  | NodeFilter.metatypeIDF op v => opSem op n.metatype_id v
  | NodeFilter.dataSourceIDF op v => opSem op n.data_source_id v
  | NodeFilter.originalDataIDF op v => opSem op n.original_data_id v
  | NodeFilter.importDataIDF op v => opSem op n.import_data_id v
  | NodeFilter.idF op a => idArgMatches n.id op a
  | NodeFilter.propertyF name op v dt => propSem op ((n.properties.lookup name).getD "") v dt

/-- Modelled from the spec: list execution of the node repository applies the
conjunction of the chained predicates over the node table and the limit
option. -/
def runNodeQuery (opSem : String → String → String → Bool)
    (propSem : String → String → String → String → Bool) (db : List GNode)
    (fs : List NodeFilter) (lim : Nat) : List GNode :=
  (db.filter (fun n => fs.all (nodeMatches opSem propSem n))).take lim

/-- C1, confirmed: when the relationship argument is present and the edge
lookup returns zero matching edges, the resolver constrains the node query
with the impossible id-equals-zero predicate (schema.ts lines 348-351), so
over any node table whose ids are nonzero, as database serial ids are, the
query returns zero rows instead of behaving as if the relationship filter
were absent. -/
theorem relationship_zero_edges (opSem : String → String → String → Bool)
    (propSem : String → String → String → String → Bool) (cid : String) (mt : Metatype)
    (fbr : String → String → String → List GEdge) (input : ResolverInput)
    (db : List GNode) (rel dest : String)
    (hrel : input.relationship = some (rel, dest))
    (hzero : fbr mt.name (replaceFirstUnderscore rel) dest = [])
    (hids : ∀ n ∈ db, n.id ≠ 0) :
    NodeFilter.idF "eq" (IdArg.idNum 0) ∈ resolverFilters cid mt fbr input ∧
      runNodeQuery opSem propSem db (resolverFilters cid mt fbr input) 10000 = [] := by
  have hmem : NodeFilter.idF "eq" (IdArg.idNum 0) ∈ resolverFilters cid mt fbr input := by
    simp [resolverFilters, hrel, hzero]
  refine ⟨hmem, ?_⟩
  rw [runNodeQuery]
  have hfil : List.filter
      (fun n => (resolverFilters cid mt fbr input).all (nodeMatches opSem propSem n)) db = [] := by
    rw [List.filter_eq_nil_iff]
    intro n hn hall
    rw [List.all_eq_true] at hall
    have hmatch := hall _ hmem
    simp [nodeMatches, idArgMatches] at hmatch
    exact hids n hn hmatch
  rw [hfil]
  rfl

def mtPump : Metatype := { id := "1", name := "Pump", description := "", keys := none }

def nodeOne : GNode :=
  { id := 1, container_id := "c1", metatype_id := "1", metatype_name := "Pump",
    data_source_id := "d", original_data_id := "o", import_data_id := "i", metadata := "",
    created_at := none, created_by := "u", modified_at := none, modified_by := "u",
    properties := [] }

def inputFeedsTank : ResolverInput :=
  { record := none, relationship := some ("feeds", "Tank"), propertyArgs := [] }

def noEdges : String → String → String → List GEdge := fun _ _ _ => []

/-- C1 witness: the zero-edge theorem applied at a concrete invocation over a
one-node table. -/
theorem relationship_zero_edges_witness :
    NodeFilter.idF "eq" (IdArg.idNum 0) ∈ resolverFilters "c1" mtPump noEdges inputFeedsTank ∧
      runNodeQuery (fun _ _ _ => true) (fun _ _ _ _ => true) [nodeOne]
        (resolverFilters "c1" mtPump noEdges inputFeedsTank) 10000 = [] :=
  relationship_zero_edges (fun _ _ _ => true) (fun _ _ _ _ => true) "c1" mtPump noEdges
    inputFeedsTank [nodeOne] "feeds" "Tank" rfl rfl (by decide)

/-! ## The fixed result limit (schema.ts lines 384-387 and 91-100) -/

/-- The query execution the resolver performs: repo.list with
loadRelationships true and a literal limit option of 10000. -/
structure ExecutedQuery where
  filters : List NodeFilter
  loadRelationships : Bool
  limit : Nat
  deriving DecidableEq

def resolverQuery (cid : String) (mt : Metatype)
    (fbr : String → String → String → List GEdge) (input : ResolverInput) : ExecutedQuery :=
  { filters := resolverFilters cid mt fbr input, loadRelationships := true, limit := 10000 }

/-- Default declared for the limit field of record_input (schema.ts line 97). -/
def recordInputDefaultLimit : Nat := 10000

/-- Default declared for the page field of record_input (schema.ts line 98). -/
def recordInputDefaultPage : Nat := 1

/-- Overwrite the user-supplied limit and page of the record argument. -/
def setRecordLimitPage (input : ResolverInput) (l p : Nat) : ResolverInput :=
  { input with record := input.record.map (fun r => { r with limit := l, page := p }) }

/-- C10, confirmed: every resolver invocation executes its node query with
the literal limit 10000, the record_input defaults are declared as 10000 and
1, and changing the user-supplied limit and page leaves the executed query
unchanged, so those arguments are never applied. -/
theorem resolver_limit_fixed (cid : String) (mt : Metatype)
    (fbr : String → String → String → List GEdge) (input : ResolverInput) :
    (resolverQuery cid mt fbr input).limit = 10000 ∧
      recordInputDefaultLimit = 10000 ∧ recordInputDefaultPage = 1 ∧
      ∀ l p, resolverQuery cid mt fbr (setRecordLimitPage input l p) =
        resolverQuery cid mt fbr input := by
  refine ⟨rfl, rfl, rfl, ?_⟩
  intro l p
  obtain ⟨rec, relA, props⟩ := input
  cases rec with
  | none => rfl
  | some r => rfl

/-! ## Resolver result handling (schema.ts lines 384-430)

The resolver wraps the repository call in a promise: on a fulfilled Result
with isError it logs and resolves the empty list (a JavaScript promise keeps
its first resolution, so the TypeError thrown by the subsequent forEach over
the undefined value is swallowed by the catch whose resolve is a no-op); on a
successful Result it resolves the reshaped rows; on a rejected repository
promise the catch resolves with the rejection value itself. The promise never
rejects, which the embedding expresses by returning in the ok constructor of
Except everywhere; an error constructor would be a propagated exception. -/

structure NodeRecordInfo where
  id : Nat
  data_source_id : String
  original_id : String
  (import_id : String)
  metatype_id : String
  metatype_name : String
  metadata : String
  created_at : Option String
  created_by : String
  modified_at : Option String
  modified_by : String
  deriving DecidableEq

structure NodeOutput where
  properties : List (String × String)
  record : NodeRecordInfo
  deriving DecidableEq

/-- Row reshaping (schema.ts lines 395-423): property keys sanitized and the
provenance fields wrapped in the reserved record substructure. -/
def reshapeNode (n : GNode) : NodeOutput :=
  { properties := n.properties.map (fun p => (stringToValidPropertyName p.1, p.2)),
    record :=
      { id := n.id, data_source_id := n.data_source_id,
        original_id := n.original_data_id, import_id := n.import_data_id,
        metatype_id := n.metatype_id, metatype_name := n.metatype_name,
        metadata := n.metadata, created_at := n.created_at,
        created_by := n.created_by, modified_at := n.modified_at,
        modified_by := n.modified_by } }

/-- Outcome of the repository list call: a fulfilled Result object carrying
its isError flag and value, or a rejected promise carrying the thrown value. -/
inductive RepoListOutcome where
  | ok (isError : Bool) (value : List GNode)
  | thrown (e : String)
  deriving DecidableEq

/-- Value with which the resolver promise resolves. -/
inductive FieldValue where
  | listV (ns : List NodeOutput)
  | rawV (e : String)
  deriving DecidableEq

/-- The resolver promise (schema.ts lines 384-430). -/
def resolveField : RepoListOutcome → Except String FieldValue
  | RepoListOutcome.ok true _ => Except.ok (FieldValue.listV [])
  | RepoListOutcome.ok false value => Except.ok (FieldValue.listV (value.map reshapeNode))
  | RepoListOutcome.thrown e => Except.ok (FieldValue.rawV e)

/-- The repository call failed: the Result reports an error or the call threw. -/
def repoCallFailed : RepoListOutcome → Prop
  | RepoListOutcome.ok isErr _ => isErr = true
  | RepoListOutcome.thrown _ => True

/-- The claim of C5, rendered exactly: every failing repository outcome makes
the field resolve to the empty result set. -/
def claimC5 : Prop :=
  ∀ o, repoCallFailed o → resolveField o = Except.ok (FieldValue.listV [])

/-- C5 counterexample: when the repository call throws, the catch handler
resolves the field with the thrown value itself (schema.ts lines 427-429),
not with an empty result set. -/
theorem resolver_error_cex : ¬ claimC5 := by
  intro h
  have hb := h (RepoListOutcome.thrown "boom") trivial
  simp [resolveField] at hb

/-- C5, corrected: when the repository returns an error Result the field
resolves to the empty result set after logging; when the repository call
throws, the resolver resolves the field with the thrown value itself rather
than an empty result set; in every case the resolver promise resolves and
never propagates an exception to the caller. -/
theorem resolver_error_amended :
    (∀ v, resolveField (RepoListOutcome.ok true v) = Except.ok (FieldValue.listV [])) ∧
    (∀ e, resolveField (RepoListOutcome.thrown e) = Except.ok (FieldValue.rawV e)) ∧
    (∀ v, resolveField (RepoListOutcome.ok false v) =
      Except.ok (FieldValue.listV (v.map reshapeNode))) ∧
    (∀ o, ∃ fv, resolveField o = Except.ok fv) := by
  refine ⟨fun v => rfl, fun e => rfl, fun v => rfl, ?_⟩
  intro o
  cases o with
  | ok isErr v => cases isErr <;> exact ⟨_, rfl⟩
  | thrown e => exact ⟨_, rfl⟩

/-! ## TypeMapping and TypeTransformation domain objects

The domain classes live outside src; the embedding carries exactly the fields
the repository code (src/unnamed/part_003) reads or writes. validationErrors
is class-validator logic outside src, so each object carries a flag recording
whether its validation fails. -/

structure TransformationKey where
  metatype_key_id : Option String
  metatype_relationship_key_id : Option String
  key_name : Option String
  deriving DecidableEq

structure Transformation where
  id : Option String
  type_mapping_id : Option String
  container_id : Option String
  data_source_id : Option String
  shape_hash : Option String
  metatype_id : Option String
  metatype_relationship_pair_id : Option String
  metatype_name : Option String
  metatype_relationship_pair_name : Option String
  created_at : Option String
  created_by : Option String
  modified_at : Option String
  modified_by : Option String
  keys : List TransformationKey
  validationFails : Bool
  deriving DecidableEq

structure TypeMappingObj where
  id : Option String
  container_id : Option String
  data_source_id : Option String
  shape_hash : Option String
  active : Bool
  created_at : Option String
  created_by : Option String
  modified_at : Option String
  modified_by : Option String
  transformations : Option (List Transformation)
  removedTransformations : Option (List Transformation)
  validationFails : Bool
  deriving DecidableEq

/-! ## TypeMappingRepository.save and saveTransformations
(src/unnamed/part_003 lines 81-238)

The simulation threads an explicit transaction state: writes issued inside
the open transaction are buffered in pending and only merged into db by a
successful commit; rollback discards pending. Mapper failures are injected
through MapperEnv flags. Cache invalidation calls are not modelled; they do
not touch the transaction or the persistent store. -/

inductive WriteOp where
  | mappingUpdate (id : Option String)
  | mappingCreate
  | bulkDelete (trs : List Transformation)
  | bulkUpdate (trs : List Transformation)
  | bulkCreate (trs : List Transformation)
  deriving DecidableEq

structure MapperEnv where
  startTxFails : Bool
  mappingUpdateFails : Bool
  mappingCreateFails : Bool
  bulkDeleteFails : Bool
  bulkUpdateFails : Bool
  bulkCreateFails : Bool
  commitFails : Bool
  newMappingID : String
  deriving DecidableEq

structure TxSt where
  txOpen : Bool
  pending : List WriteOp
  db : List WriteOp
  txStarts : Nat
  commitAttempts : Nat
  commitSuccesses : Nat
  rollbacks : Nat
  writeFailures : Nat
  deriving DecidableEq

def initTxSt (d0 : List WriteOp) : TxSt :=
  { txOpen := false, pending := [], db := d0, txStarts := 0, commitAttempts := 0,
    commitSuccesses := 0, rollbacks := 0, writeFailures := 0 }

def txRollback (st : TxSt) : TxSt :=
  { st with txOpen := false, pending := [], rollbacks := st.rollbacks + 1 }

def txWrite (fails : Bool) (op : WriteOp) (st : TxSt) : Bool × TxSt :=
  if fails then (false, { st with writeFailures := st.writeFailures + 1 })
  else (true, { st with pending := st.pending ++ [op] })

def txCommit (env : MapperEnv) (st : TxSt) : Bool × TxSt :=
  if env.commitFails then (false, { st with commitAttempts := st.commitAttempts + 1 })
  else
    (true,
      { st with
          commitAttempts := st.commitAttempts + 1
          txOpen := false
          db := st.db ++ st.pending
          pending := []
          commitSuccesses := st.commitSuccesses + 1 })

/-- Rollback performed only when the function opened the transaction itself. -/
def failTx (internalTx : Bool) (st : TxSt) : TxSt :=
  if internalTx then txRollback st else st

/-- startTransaction when the caller supplied none (part_003 lines 89-95 and
167-173). -/
def startStep (env : MapperEnv) (st : TxSt) : Except TxSt TxSt :=
  if env.startTxFails then Except.error st
  else Except.ok { st with txOpen := true, txStarts := st.txStarts + 1 }

/-- Bulk delete of removedTransformations (part_003 lines 175-184). -/
def remStep (env : MapperEnv) (internalTx : Bool) (t : TypeMappingObj) (st : TxSt) :
    Except TxSt TxSt :=
  match t.removedTransformations with
  | some rs =>
    if 0 < rs.length then
      match txWrite env.bulkDeleteFails (WriteOp.bulkDelete rs) st with
      | (false, s) => Except.error (failTx internalTx s)
      | (true, s) => Except.ok s
    else Except.ok st
  | none => Except.ok st

/-- Early-return check for an empty transformation array (part_003 line 186). -/
def emptyTransformations (t : TypeMappingObj) : Bool :=
  match t.transformations with
  | some ts => ts.isEmpty
  | none => false

/-- Per-transformation validation loop (part_003 lines 195-208): the first
failing transformation aborts; before the abort only cache invalidations and
parent-id assignments happen, neither of which the simulation tracks. -/
def valStep (internalTx : Bool) (t : TypeMappingObj) (st : TxSt) : Except TxSt TxSt :=
  if (t.transformations.getD []).any (fun tr => tr.validationFails) then
    Except.error (failTx internalTx st)
  else Except.ok st

/-- Transformations with the parent mapping id assigned (part_003 lines 109,
137 and 199). -/
def trsWithParent (t : TypeMappingObj) : List Transformation :=
  (t.transformations.getD []).map (fun tr => { tr with type_mapping_id := t.id })

/-- Bulk update of the transformations that carry an id (part_003 lines
210-218). -/
def updStep (env : MapperEnv) (internalTx : Bool) (t : TypeMappingObj) (st : TxSt) :
    Except TxSt TxSt :=
  let ups := (trsWithParent t).filter (fun tr => tr.id.isSome)
  if 0 < ups.length then
    match txWrite env.bulkUpdateFails (WriteOp.bulkUpdate ups) st with
    | (false, s) => Except.error (failTx internalTx s)
    | (true, s) => Except.ok s
  else Except.ok st

/-- Bulk create of the transformations without an id (part_003 lines 220-228). -/
def creStep (env : MapperEnv) (internalTx : Bool) (t : TypeMappingObj) (st : TxSt) :
    Except TxSt TxSt :=
  let crs := (trsWithParent t).filter (fun tr => tr.id.isNone)
  if 0 < crs.length then
    match txWrite env.bulkCreateFails (WriteOp.bulkCreate crs) st with
    | (false, s) => Except.error (failTx internalTx s)
    | (true, s) => Except.ok s
  else Except.ok st

/-- Commit performed only for an internally opened transaction; a commit
failure here surfaces as the error without a rollback (part_003 lines 186-193
and 230-233). -/
def commitIfInternal (env : MapperEnv) (internalTx : Bool) (st : TxSt) : Except TxSt TxSt :=
  if internalTx then
    match txCommit env st with
    | (false, s) => Except.error s
    | (true, s) => Except.ok s
  else Except.ok st

/-- saveTransformations (part_003 lines 160-238). -/
def saveTransformationsSim (env : MapperEnv) (t : TypeMappingObj) (hasTx : Bool)
    (st0 : TxSt) : Except TxSt TxSt :=
  let internalTx := !hasTx
  match (if hasTx then Except.ok st0 else startStep env st0) with
  | Except.error s => Except.error s
  | Except.ok st1 =>
    match remStep env internalTx t st1 with
    | Except.error s => Except.error s
    | Except.ok st2 =>
      if emptyTransformations t then commitIfInternal env internalTx st2
      else
        match valStep internalTx t st2 with
        | Except.error s => Except.error s
        | Except.ok st3 =>
          match updStep env internalTx t st3 with
          | Except.error s => Except.error s
          | Except.ok st4 =>
            match creStep env internalTx t st4 with
            | Except.error s => Except.error s
            | Except.ok st5 => commitIfInternal env internalTx st5

/-- Parent-id assignment on all transformations after the mapping write
(part_003 lines 109 and 137). -/
def assignParent (t : TypeMappingObj) : TypeMappingObj :=
  { t with transformations :=
      t.transformations.map (fun ts => ts.map (fun tr => { tr with type_mapping_id := t.id })) }

/-- save (part_003 lines 81-156). The update branch rolls back unconditionally
on a mapping write failure (line 102) and attempts the commit even for an
externally supplied transaction (line 119); the create branch rolls back
unconditionally on a transformation failure (line 142) and commits only when
the transaction is internal (lines 147-153). -/
def saveSim (env : MapperEnv) (t : TypeMappingObj) (saveTrs : Bool) (hasTx : Bool)
    (st0 : TxSt) : Except TxSt TxSt :=
  if t.validationFails then Except.error st0
  else
    let internalTx := !hasTx
    match (if hasTx then Except.ok st0 else startStep env st0) with
    | Except.error s => Except.error s
    | Except.ok st1 =>
      match t.id with
      | some mid =>
        (match txWrite env.mappingUpdateFails (WriteOp.mappingUpdate (some mid)) st1 with
          | (false, s) => Except.error (txRollback s)
          | (true, st2) =>
            match (if saveTrs then saveTransformationsSim env (assignParent t) true st2
                else Except.ok st2) with
            | Except.error s => Except.error (failTx internalTx s)
            | Except.ok st3 =>
              match txCommit env st3 with
              | (false, s) => Except.error (failTx internalTx s)
              | (true, st4) => Except.ok st4)
      | none =>
        (match txWrite env.mappingCreateFails WriteOp.mappingCreate st1 with
          | (false, s) => Except.error (failTx internalTx s)
          | (true, st2) =>
            match (if saveTrs then
                saveTransformationsSim env (assignParent { t with id := some env.newMappingID })
                  true st2
              else Except.ok st2) with
            | Except.error s => Except.error (txRollback s)
            | Except.ok st3 =>
              if internalTx then
                match txCommit env st3 with
                | (false, s) => Except.error (txRollback s)
                | (true, st4) => Except.ok st4
              else Except.ok st3)

/-- A transformation of the mapping fails validation. -/
def hasFailingTransformation (t : TypeMappingObj) : Bool :=
  (t.transformations.getD []).any (fun tr => tr.validationFails)

/-- The transaction-relevant fields an inner call with a supplied transaction
can never change: the persistent store, the open flag and every counter
except write failures. -/
def sameTx (a b : TxSt) : Prop :=
  b.db = a.db ∧ b.txOpen = a.txOpen ∧ b.txStarts = a.txStarts ∧
    b.commitSuccesses = a.commitSuccesses ∧ b.rollbacks = a.rollbacks

theorem sameTx_refl (a : TxSt) : sameTx a a := ⟨rfl, rfl, rfl, rfl, rfl⟩

theorem sameTx_trans {a b c : TxSt} (h1 : sameTx a b) (h2 : sameTx b c) : sameTx a c := by
  obtain ⟨x1, x2, x3, x4, x5⟩ := h1
  obtain ⟨y1, y2, y3, y4, y5⟩ := h2
  exact ⟨y1.trans x1, y2.trans x2, y3.trans x3, y4.trans x4, y5.trans x5⟩

theorem failTx_false (st : TxSt) : failTx false st = st := rfl

theorem txWrite_sameTx (f : Bool) (op : WriteOp) (st : TxSt) :
    sameTx st (txWrite f op st).2 := by
  cases f <;> simp [txWrite, sameTx]

theorem txWrite_ok_wf (f : Bool) (op : WriteOp) (st : TxSt)
    (h : (txWrite f op st).1 = true) : (txWrite f op st).2.writeFailures = st.writeFailures := by
  cases f <;> simp_all [txWrite]

theorem remStep_false_char (env : MapperEnv) (t : TypeMappingObj) (st : TxSt) :
    (∃ s, remStep env false t st = Except.error s ∧ sameTx st s) ∨
      (∃ s, remStep env false t st = Except.ok s ∧ sameTx st s ∧
        s.writeFailures = st.writeFailures) := by
  rw [remStep]
  cases ht : t.removedTransformations with
  | none => exact Or.inr ⟨st, rfl, sameTx_refl st, rfl⟩
  | some rs =>
    by_cases hl : 0 < rs.length
    · cases hf : env.bulkDeleteFails with
      | false =>
        refine Or.inr ⟨{ st with pending := st.pending ++ [WriteOp.bulkDelete rs] }, ?_, ?_, rfl⟩
        · simp [hl, txWrite]
        · simp [sameTx]
      | true =>
        refine Or.inl ⟨{ st with writeFailures := st.writeFailures + 1 }, ?_, ?_⟩
        · simp [hl, txWrite, failTx]
        · simp [sameTx]
    · refine Or.inr ⟨st, ?_, sameTx_refl st, rfl⟩
      simp [hl]

theorem valStep_false_char (t : TypeMappingObj) (st : TxSt) :
    ((t.transformations.getD []).any (fun tr => tr.validationFails) = true ∧
        valStep false t st = Except.error st) ∨
      ((t.transformations.getD []).any (fun tr => tr.validationFails) = false ∧
        valStep false t st = Except.ok st) := by
  by_cases h : (t.transformations.getD []).any (fun tr => tr.validationFails) = true
  · exact Or.inl ⟨h, by simp [valStep, h, failTx_false]⟩
  · refine Or.inr ⟨by simpa using h, by simp [valStep, h]⟩

theorem updStep_false_char (env : MapperEnv) (t : TypeMappingObj) (st : TxSt) :
    (∃ s, updStep env false t st = Except.error s ∧ sameTx st s) ∨
      (∃ s, updStep env false t st = Except.ok s ∧ sameTx st s ∧
        s.writeFailures = st.writeFailures) := by
  rw [updStep]
  by_cases hl : 0 < ((trsWithParent t).filter (fun tr => tr.id.isSome)).length
  · cases hf : env.bulkUpdateFails with
    | false =>
      refine Or.inr ⟨{ st with pending := st.pending ++
        [WriteOp.bulkUpdate ((trsWithParent t).filter (fun tr => tr.id.isSome))] }, ?_, ?_, rfl⟩
      · simp [hl, txWrite]
      · simp [sameTx]
    | true =>
      refine Or.inl ⟨{ st with writeFailures := st.writeFailures + 1 }, ?_, ?_⟩
      · simp [hl, txWrite, failTx]
      · simp [sameTx]
  · refine Or.inr ⟨st, ?_, sameTx_refl st, rfl⟩
    simp [hl]

theorem creStep_false_char (env : MapperEnv) (t : TypeMappingObj) (st : TxSt) :
    (∃ s, creStep env false t st = Except.error s ∧ sameTx st s) ∨
      (∃ s, creStep env false t st = Except.ok s ∧ sameTx st s ∧
        s.writeFailures = st.writeFailures) := by
  rw [creStep]
  by_cases hl : 0 < ((trsWithParent t).filter (fun tr => tr.id.isNone)).length
  · cases hf : env.bulkCreateFails with
    | false =>
      refine Or.inr ⟨{ st with pending := st.pending ++
        [WriteOp.bulkCreate ((trsWithParent t).filter (fun tr => tr.id.isNone))] }, ?_, ?_, rfl⟩
      · simp [hl, txWrite]
      · simp [sameTx]
    | true =>
      refine Or.inl ⟨{ st with writeFailures := st.writeFailures + 1 }, ?_, ?_⟩
      · simp [hl, txWrite, failTx]
      · simp [sameTx]
  · refine Or.inr ⟨st, ?_, sameTx_refl st, rfl⟩
    simp [hl]

theorem commitIfInternal_false (env : MapperEnv) (st : TxSt) :
    commitIfInternal env false st = Except.ok st := rfl

theorem emptyTransformations_no_failing (t : TypeMappingObj)
    (h : emptyTransformations t = true) : hasFailingTransformation t = false := by
  rw [emptyTransformations] at h
  rw [hasFailingTransformation]
  cases ht : t.transformations with
  | none => simp
  | some ts =>
    rw [ht] at h
    simp only at h
    rw [List.isEmpty_iff] at h
    simp [ht, h]

theorem saveTrsSim_true_char (env : MapperEnv) (t : TypeMappingObj) (st : TxSt) :
    (∃ s, saveTransformationsSim env t true st = Except.error s ∧ sameTx st s) ∨
      (∃ s, saveTransformationsSim env t true st = Except.ok s ∧ sameTx st s ∧
        s.writeFailures = st.writeFailures ∧ hasFailingTransformation t = false) := by
  rw [saveTransformationsSim]
  simp only [Bool.not_true]
  rcases remStep_false_char env t st with ⟨s2, hs2, hsame2⟩ | ⟨s2, hs2, hsame2, hwf2⟩
  · exact Or.inl ⟨s2, by simp [hs2], hsame2⟩
  · by_cases he : emptyTransformations t
    · refine Or.inr ⟨s2, ?_, hsame2, hwf2, emptyTransformations_no_failing t he⟩
      simp [hs2, he, commitIfInternal_false]
    · rcases valStep_false_char t st with ⟨hv, _⟩ | ⟨hv, _⟩
      · refine Or.inl ⟨s2, ?_, hsame2⟩
        have hv2 : valStep false t s2 = Except.error s2 := by simp [valStep, hv, failTx]
        simp [hs2, he, hv2]
      · have hv2 : valStep false t s2 = Except.ok s2 := by simp [valStep, hv]
        rcases updStep_false_char env t s2 with ⟨s3, hs3, hsame3⟩ | ⟨s3, hs3, hsame3, hwf3⟩
        · exact Or.inl ⟨s3, by simp [hs2, he, hv2, hs3], sameTx_trans hsame2 hsame3⟩
        · rcases creStep_false_char env t s3 with ⟨s4, hs4, hsame4⟩ | ⟨s4, hs4, hsame4, hwf4⟩
          · exact Or.inl ⟨s4, by simp [hs2, he, hv2, hs3, hs4],
              sameTx_trans (sameTx_trans hsame2 hsame3) hsame4⟩
          · refine Or.inr ⟨s4, ?_, sameTx_trans (sameTx_trans hsame2 hsame3) hsame4,
              by rw [hwf4, hwf3, hwf2], ?_⟩
            · simp [hs2, he, hv2, hs3, hs4, commitIfInternal_false]
            · rw [hasFailingTransformation]
              exact hv

theorem hasFailing_assignParent (t : TypeMappingObj) :
    hasFailingTransformation (assignParent t) = hasFailingTransformation t := by
  rw [hasFailingTransformation, hasFailingTransformation, assignParent]
  cases ht : t.transformations with
  | none => rfl
  | some ts =>
    show (ts.map _).any _ = ts.any _
    rw [List.any_map]
    rfl

theorem hasFailing_setID (t : TypeMappingObj) (i : String) :
    hasFailingTransformation { t with id := some i } = hasFailingTransformation t := rfl

/-- Transaction state right after an internal save opened its transaction. -/
def stStarted (d0 : List WriteOp) : TxSt :=
  { txOpen := true, pending := [], db := d0, txStarts := 1, commitAttempts := 0,
    commitSuccesses := 0, rollbacks := 0, writeFailures := 0 }

/-- State after the buffered mapping update write. -/
def stPendU (d0 : List WriteOp) (mid : String) : TxSt :=
  { stStarted d0 with pending := [WriteOp.mappingUpdate (some mid)] }

/-- State after the buffered mapping create write. -/
def stPendC (d0 : List WriteOp) : TxSt :=
  { stStarted d0 with pending := [WriteOp.mappingCreate] }

theorem saveSim_char (env : MapperEnv) (t : TypeMappingObj) (saveTrs : Bool)
    (d0 : List WriteOp) :
    (∃ s, saveSim env t saveTrs false (initTxSt d0) = Except.error s ∧
        s.db = d0 ∧ s.pending = [] ∧ s.txOpen = false ∧ s.commitSuccesses = 0 ∧
        (s.txStarts = 1 → s.rollbacks = 1)) ∨
      (∃ s, saveSim env t saveTrs false (initTxSt d0) = Except.ok s ∧
        s.commitSuccesses = 1 ∧ s.writeFailures = 0 ∧
        (saveTrs = true → hasFailingTransformation t = false)) := by
  cases hvf : t.validationFails with
  | true =>
    refine Or.inl ⟨initTxSt d0, ?_, rfl, rfl, rfl, rfl, ?_⟩
    · simp [saveSim, hvf]
    · intro h
      simp [initTxSt] at h
  | false =>
    cases hst : env.startTxFails with
    | true =>
      refine Or.inl ⟨initTxSt d0, ?_, rfl, rfl, rfl, rfl, ?_⟩
      · simp [saveSim, hvf, startStep, hst]
      · intro h
        simp [initTxSt] at h
    | false =>
      have hstart : startStep env (initTxSt d0) = Except.ok (stStarted d0) := by
        simp [startStep, hst, initTxSt, stStarted]
      cases hid : t.id with
      | some mid =>
        cases hwu : env.mappingUpdateFails with
        | true =>
          refine Or.inl ⟨txRollback { stStarted d0 with writeFailures := 1 },
            ?_, rfl, rfl, rfl, rfl, fun _ => rfl⟩
          have hw : txWrite env.mappingUpdateFails (WriteOp.mappingUpdate (some mid))
              (stStarted d0) = (false, { stStarted d0 with writeFailures := 1 }) := by
            simp [txWrite, hwu, stStarted]
          simp [saveSim, hvf, hstart, hid, hw]
        | false =>
          have hw : txWrite env.mappingUpdateFails (WriteOp.mappingUpdate (some mid))
              (stStarted d0) = (true, stPendU d0 mid) := by
            simp [txWrite, hwu, stPendU, stStarted]
          cases hsv : saveTrs with
          | true =>
            rcases saveTrsSim_true_char env (assignParent t) (stPendU d0 mid) with
              ⟨s, hs, hsame⟩ | ⟨s, hs, hsame, hwf, hnf⟩
            · obtain ⟨hdb, hop, hts, hcs, hrb⟩ := hsame
              refine Or.inl ⟨failTx true s, ?_, ?_, rfl, rfl, ?_, fun _ => ?_⟩
              · simp [saveSim, hvf, hstart, hid, hw, hsv, hs]
              · simp [failTx, txRollback, hdb, stPendU, stStarted]
              · simp [failTx, txRollback, hcs, stPendU, stStarted]
              · simp [failTx, txRollback, hrb, stPendU, stStarted]
            · obtain ⟨hdb, hop, hts, hcs, hrb⟩ := hsame
              cases hcf : env.commitFails with
              | true =>
                refine Or.inl ⟨failTx true { s with commitAttempts := s.commitAttempts + 1 },
                  ?_, ?_, rfl, rfl, ?_, fun _ => ?_⟩
                · have hc : txCommit env s =
                      (false, { s with commitAttempts := s.commitAttempts + 1 }) := by
                    simp [txCommit, hcf]
                  simp [saveSim, hvf, hstart, hid, hw, hsv, hs, hc]
                · simp [failTx, txRollback, hdb, stPendU, stStarted]
                · simp [failTx, txRollback, hcs, stPendU, stStarted]
                · simp [failTx, txRollback, hrb, stPendU, stStarted]
              | false =>
                refine Or.inr ⟨{ s with
                  commitAttempts := s.commitAttempts + 1
                  txOpen := false
                  db := s.db ++ s.pending
                  pending := []
                  commitSuccesses := s.commitSuccesses + 1 }, ?_, ?_, ?_, fun _ => ?_⟩
                · have hc : txCommit env s = (true, { s with
                      commitAttempts := s.commitAttempts + 1
                      txOpen := false
                      db := s.db ++ s.pending
                      pending := []
                      commitSuccesses := s.commitSuccesses + 1 }) := by
                    simp [txCommit, hcf]
                  simp [saveSim, hvf, hstart, hid, hw, hsv, hs, hc]
                · simp [hcs, stPendU, stStarted]
                · simp [hwf, stPendU, stStarted]
                · rw [← hasFailing_assignParent t]
                  exact hnf
          | false =>
            cases hcf : env.commitFails with
            | true =>
              refine Or.inl ⟨failTx true
                { stPendU d0 mid with commitAttempts := 1 }, ?_, rfl, rfl, rfl, rfl, fun _ => rfl⟩
              have hc : txCommit env (stPendU d0 mid) =
                  (false, { stPendU d0 mid with commitAttempts := 1 }) := by
                simp [txCommit, hcf, stPendU, stStarted]
              simp [saveSim, hvf, hstart, hid, hw, hsv, hc]
            | false =>
              refine Or.inr ⟨{ stPendU d0 mid with
                commitAttempts := 1
                txOpen := false
                db := d0 ++ [WriteOp.mappingUpdate (some mid)]
                pending := []
                commitSuccesses := 1 }, ?_, rfl, rfl, fun h => by simp [hsv] at h⟩
              have hc : txCommit env (stPendU d0 mid) =
                  (true, { stPendU d0 mid with
                    commitAttempts := 1
                    txOpen := false
                    db := d0 ++ [WriteOp.mappingUpdate (some mid)]
                    pending := []
                    commitSuccesses := 1 }) := by
                simp [txCommit, hcf, stPendU, stStarted]
              simp [saveSim, hvf, hstart, hid, hw, hsv, hc]
      | none =>
        cases hwc : env.mappingCreateFails with
        | true =>
          refine Or.inl ⟨failTx true { stStarted d0 with writeFailures := 1 },
            ?_, rfl, rfl, rfl, rfl, fun _ => rfl⟩
          have hw : txWrite env.mappingCreateFails WriteOp.mappingCreate (stStarted d0) =
              (false, { stStarted d0 with writeFailures := 1 }) := by
            simp [txWrite, hwc, stStarted]
          simp [saveSim, hvf, hstart, hid, hw]
        | false =>
          have hw : txWrite env.mappingCreateFails WriteOp.mappingCreate (stStarted d0) =
              (true, stPendC d0) := by
            simp [txWrite, hwc, stPendC, stStarted]
          cases hsv : saveTrs with
          | true =>
            rcases saveTrsSim_true_char env
                (assignParent { t with id := some env.newMappingID }) (stPendC d0) with
              ⟨s, hs, hsame⟩ | ⟨s, hs, hsame, hwf, hnf⟩
            · obtain ⟨hdb, hop, hts, hcs, hrb⟩ := hsame
              simp only [hvf] at hs
              refine Or.inl ⟨txRollback s, ?_, ?_, rfl, rfl, ?_, fun _ => ?_⟩
              · simp [saveSim, hvf, hstart, hid, hw, hsv, hs]
              · simp [txRollback, hdb, stPendC, stStarted]
              · simp [txRollback, hcs, stPendC, stStarted]
              · simp [txRollback, hrb, stPendC, stStarted]
            · obtain ⟨hdb, hop, hts, hcs, hrb⟩ := hsame
              simp only [hvf] at hs
              cases hcf : env.commitFails with
              | true =>
                refine Or.inl ⟨txRollback { s with commitAttempts := s.commitAttempts + 1 },
                  ?_, ?_, rfl, rfl, ?_, fun _ => ?_⟩
                · have hc : txCommit env s =
                      (false, { s with commitAttempts := s.commitAttempts + 1 }) := by
                    simp [txCommit, hcf]
                  simp [saveSim, hvf, hstart, hid, hw, hsv, hs, hc]
                · simp [txRollback, hdb, stPendC, stStarted]
                · simp [txRollback, hcs, stPendC, stStarted]
                · simp [txRollback, hrb, stPendC, stStarted]
              | false =>
                refine Or.inr ⟨{ s with
                  commitAttempts := s.commitAttempts + 1
                  txOpen := false
                  db := s.db ++ s.pending
                  pending := []
                  commitSuccesses := s.commitSuccesses + 1 }, ?_, ?_, ?_, fun _ => ?_⟩
                · have hc : txCommit env s = (true, { s with
                      commitAttempts := s.commitAttempts + 1
                      txOpen := false
                      db := s.db ++ s.pending
                      pending := []
                      commitSuccesses := s.commitSuccesses + 1 }) := by
                    simp [txCommit, hcf]
                  simp [saveSim, hvf, hstart, hid, hw, hsv, hs, hc]
                · simp [hcs, stPendC, stStarted]
                · simp [hwf, stPendC, stStarted]
                · have h1 : hasFailingTransformation
                      (assignParent { t with id := some env.newMappingID }) =
                      hasFailingTransformation t := by
                    rw [hasFailing_assignParent, hasFailing_setID]
                  rw [← h1]
                  simpa [hvf] using hnf
          | false =>
            cases hcf : env.commitFails with
            | true =>
              refine Or.inl ⟨txRollback
                { stPendC d0 with commitAttempts := 1 }, ?_, rfl, rfl, rfl, rfl, fun _ => rfl⟩
              have hc : txCommit env (stPendC d0) =
                  (false, { stPendC d0 with commitAttempts := 1 }) := by
                simp [txCommit, hcf, stPendC, stStarted]
              simp [saveSim, hvf, hstart, hid, hw, hsv, hc]
            | false =>
              refine Or.inr ⟨{ stPendC d0 with
                commitAttempts := 1
                txOpen := false
                db := d0 ++ [WriteOp.mappingCreate]
                pending := []
                commitSuccesses := 1 }, ?_, rfl, rfl, fun h => by simp [hsv] at h⟩
              have hc : txCommit env (stPendC d0) =
                  (true, { stPendC d0 with
                    commitAttempts := 1
                    txOpen := false
                    db := d0 ++ [WriteOp.mappingCreate]
                    pending := []
                    commitSuccesses := 1 }) := by
                simp [txCommit, hcf, stPendC, stStarted]
              simp [saveSim, hvf, hstart, hid, hw, hsv, hc]

/-- C6, confirmed: for a save that opens its transaction internally, every
failure path, in particular a transformation validation failure or a failed
transformation bulk write, leaves the persistent store unchanged with the
transaction rolled back and nothing pending, so no transformation is ever
partially persisted; the transaction is committed at most once, exactly on
the fully successful save, and a successful save saw no failed write. -/
theorem typeMapping_save_transaction (env : MapperEnv) (t : TypeMappingObj)
    (saveTrs : Bool) (d0 : List WriteOp) :
    (∀ s, saveSim env t saveTrs false (initTxSt d0) = Except.error s →
        s.db = d0 ∧ s.pending = [] ∧ s.txOpen = false ∧ s.commitSuccesses = 0 ∧
          (s.txStarts = 1 → s.rollbacks = 1)) ∧
      (∀ s, saveSim env t saveTrs false (initTxSt d0) = Except.ok s →
        s.commitSuccesses = 1 ∧ s.writeFailures = 0) ∧
      (saveTrs = true → hasFailingTransformation t = true →
        ∃ s, saveSim env t saveTrs false (initTxSt d0) = Except.error s) := by
  rcases saveSim_char env t saveTrs d0 with ⟨s0, he, hprops⟩ | ⟨s0, ho, h1, h2, h3⟩
  · refine ⟨?_, ?_, ?_⟩
    · intro s hs
      rw [he] at hs
      injection hs with hh
      subst hh
      exact hprops
    · intro s hs
      rw [he] at hs
      exact absurd hs (by simp)
    · intro _ _
      exact ⟨s0, he⟩
  · refine ⟨?_, ?_, ?_⟩
    · intro s hs
      rw [ho] at hs
      exact absurd hs (by simp)
    · intro s hs
      rw [ho] at hs
      injection hs with hh
      subst hh
      exact ⟨h1, h2⟩
    · intro hsv hfail
      rw [h3 hsv] at hfail
      exact absurd hfail (by simp)

def envNoFailures : MapperEnv :=
  { startTxFails := false, mappingUpdateFails := false, mappingCreateFails := false,
    bulkDeleteFails := false, bulkUpdateFails := false, bulkCreateFails := false,
    commitFails := false, newMappingID := "m1" }

def invalidTransformation : Transformation :=
  { id := none, type_mapping_id := none, container_id := none, data_source_id := none,
    shape_hash := none, metatype_id := none, metatype_relationship_pair_id := none,
    metatype_name := none, metatype_relationship_pair_name := none, created_at := none,
    created_by := none, modified_at := none, modified_by := none, keys := [],
    validationFails := true }

def mappingWithInvalidTr : TypeMappingObj :=
  { id := none, container_id := some "c1", data_source_id := some "d1",
    shape_hash := some "h1", active := true, created_at := none, created_by := none,
    modified_at := none, modified_by := none,
    transformations := some [invalidTransformation], removedTransformations := none,
    validationFails := false }

/-- C6 witness: the transaction theorem applied to a concrete internal save
whose single transformation fails validation, over an empty store. -/
theorem typeMapping_save_transaction_witness :
    ∃ s, saveSim envNoFailures mappingWithInvalidTr true false (initTxSt []) =
        Except.error s ∧ s.db = [] ∧ s.pending = [] ∧ s.commitSuccesses = 0 := by
  obtain ⟨s, hs⟩ :=
    (typeMapping_save_transaction envNoFailures mappingWithInvalidTr true []).2.2 rfl
      (by decide)
  have hp := (typeMapping_save_transaction envNoFailures mappingWithInvalidTr true []).1 s hs
  exact ⟨s, hs, hp.1, hp.2.1, hp.2.2.2.1⟩

/-! ## TypeMappingRepository.findByID and findByShapeHash
(src/unnamed/part_003 lines 40-79)

Both lookups consult the cache first and fall back to the mapper; when the
retrieve succeeded and transformations were requested, the transformation
list is loaded, merged on success, and the mapping is cached. The source
comment says the object must not be cached unless it is entire, yet setCache
runs even when the transformation listing returned an error, so a mapping
without its transformations is written to the cache. -/

inductive RepoEvent where
  | cacheGetByID (id : String)
  | cacheGetByShapeHash (shapeHash : String) (dataSourceID : String)
  | storeRetrieve (id : String)
  | storeRetrieveByShapeHash (dataSourceID : String) (shapeHash : String)
  | transformationsList (mappingID : String)
  | cacheSet (m : TypeMappingObj)
  deriving DecidableEq

structure LookupEnv where
  cacheByID : String → Option TypeMappingObj
  cacheByShapeHash : String → String → Option TypeMappingObj
  storeByID : String → Except String TypeMappingObj
  storeByShapeHash : String → String → Except String TypeMappingObj
  transformationsFor : String → Except String (List Transformation)

/-- Modelled from the spec: addTransformation on the TypeMapping domain
object (outside src) appends the given transformations to the mapping. -/
def addTransformations (m : TypeMappingObj) (trs : List Transformation) : TypeMappingObj :=
  { m with transformations := some ((m.transformations.getD []) ++ trs) }

/-- findByID (part_003 lines 40-58), returning the result together with the
trace of cache, store and transformation-mapper events in order. -/
def findByIDSim (env : LookupEnv) (id : String) (loadTransformations : Bool) :
    Except String TypeMappingObj × List RepoEvent :=
  match env.cacheByID id with
  | some cached => (Except.ok cached, [RepoEvent.cacheGetByID id])
  | none =>
    match env.storeByID id with
    | Except.error e => (Except.error e, [RepoEvent.cacheGetByID id, RepoEvent.storeRetrieve id])
    | Except.ok m =>
      if loadTransformations then
        match env.transformationsFor (m.id.getD "") with
        | Except.ok trs =>
          (Except.ok (addTransformations m trs),
            [RepoEvent.cacheGetByID id, RepoEvent.storeRetrieve id,
              RepoEvent.transformationsList (m.id.getD ""),
              RepoEvent.cacheSet (addTransformations m trs)])
        | Except.error _ =>
          (Except.ok m,
            [RepoEvent.cacheGetByID id, RepoEvent.storeRetrieve id,
              RepoEvent.transformationsList (m.id.getD ""), RepoEvent.cacheSet m])
      else (Except.ok m, [RepoEvent.cacheGetByID id, RepoEvent.storeRetrieve id])

/-- findByShapeHash (part_003 lines 61-79), same structure keyed by shape
hash and data source. -/
def findByShapeHashSim (env : LookupEnv) (shapeHash : String) (dataSourceID : String)
    (loadTransformations : Bool) : Except String TypeMappingObj × List RepoEvent :=
  match env.cacheByShapeHash shapeHash dataSourceID with
  | some cached => (Except.ok cached, [RepoEvent.cacheGetByShapeHash shapeHash dataSourceID])
  | none =>
    match env.storeByShapeHash dataSourceID shapeHash with
    | Except.error e =>
      (Except.error e,
        [RepoEvent.cacheGetByShapeHash shapeHash dataSourceID,
          RepoEvent.storeRetrieveByShapeHash dataSourceID shapeHash])
    | Except.ok m =>
      if loadTransformations then
        match env.transformationsFor (m.id.getD "") with
        | Except.ok trs =>
          (Except.ok (addTransformations m trs),
            [RepoEvent.cacheGetByShapeHash shapeHash dataSourceID,
              RepoEvent.storeRetrieveByShapeHash dataSourceID shapeHash,
              RepoEvent.transformationsList (m.id.getD ""),
              RepoEvent.cacheSet (addTransformations m trs)])
        | Except.error _ =>
          (Except.ok m,
            [RepoEvent.cacheGetByShapeHash shapeHash dataSourceID,
              RepoEvent.storeRetrieveByShapeHash dataSourceID shapeHash,
              RepoEvent.transformationsList (m.id.getD ""), RepoEvent.cacheSet m])
      else
        (Except.ok m,
          [RepoEvent.cacheGetByShapeHash shapeHash dataSourceID,
            RepoEvent.storeRetrieveByShapeHash dataSourceID shapeHash])

/-- Stored mapping whose transformation listing will fail: transformations
have not been loaded. -/
def storedPartialMapping : TypeMappingObj :=
  { id := some "42", container_id := some "c1", data_source_id := some "d1",
    shape_hash := some "h1", active := true, created_at := none, created_by := none,
    modified_at := none, modified_by := none, transformations := none,
    removedTransformations := none, validationFails := false }

/-- Environment where the cache misses, the store retrieve succeeds and the
transformation listing errors. -/
def envPartialLoad : LookupEnv :=
  { cacheByID := fun _ => none, cacheByShapeHash := fun _ _ => none,
    storeByID := fun _ => Except.ok storedPartialMapping,
    storeByShapeHash := fun _ _ => Except.ok storedPartialMapping,
    transformationsFor := fun _ => Except.error "transformation listing failed" }

/-- C7, code bug: the lookup does consult the cache before the persistent
store (the trace starts with the cache read), but when the transformation
listing fails findByID still writes the mapping to the cache with no
transformations loaded, contradicting the source comment that the object must
not be cached unless it is entire; the same holds for findByShapeHash. -/
theorem findByID_caches_unloaded_mapping :
    (findByIDSim envPartialLoad "42" true).2.head? = some (RepoEvent.cacheGetByID "42") ∧
      RepoEvent.cacheSet storedPartialMapping ∈ (findByIDSim envPartialLoad "42" true).2 ∧
      storedPartialMapping.transformations = none ∧
      (findByShapeHashSim envPartialLoad "h1" "d1" true).2.head? =
        some (RepoEvent.cacheGetByShapeHash "h1" "d1") ∧
      RepoEvent.cacheSet storedPartialMapping ∈
        (findByShapeHashSim envPartialLoad "h1" "d1" true).2 := by
  refine ⟨rfl, ?_, rfl, rfl, ?_⟩ <;> simp [findByIDSim, findByShapeHashSim, envPartialLoad]

/-! ## TypeMappingRepository.prepareForImport and importToDataSource
(src/unnamed/part_003 lines 306-405) -/

/-- Modelled from the spec: TypeTransformationRepository.populateKeys is not
under src; the spec says the import path re-populates key and
metatype/relationship identification by name so identifiers can be
re-resolved later. The model fills the name fields through a caller-supplied
naming function and touches no id field. -/
def populateKeysModel (nameOf : String → Option String) (tr : Transformation) :
    Transformation :=
  { tr with
      metatype_name :=
        match tr.metatype_id with
        | some i => (nameOf i).orElse (fun _ => tr.metatype_name)
        | none => tr.metatype_name
      metatype_relationship_pair_name :=
        match tr.metatype_relationship_pair_id with
        | some i => (nameOf i).orElse (fun _ => tr.metatype_relationship_pair_name)
        | none => tr.metatype_relationship_pair_name
      keys := tr.keys.map (fun k =>
        { k with key_name :=
            match k.metatype_key_id with
            | some i => (nameOf i).orElse (fun _ => k.key_name)
            | none => k.key_name }) }

/-- Per-transformation part of prepareForImport (part_003 lines 361-391):
with a separate container the key ids and the metatype and relationship-pair
ids are cleared after populateKeys; in every case the transformation ids,
container and data-source ids, shape hash and audit fields are cleared. -/
def prepareTransformation (nameOf : String → Option String) (separateContainer : Bool)
    (tr : Transformation) : Transformation :=
  let tr1 :=
    if separateContainer then
      let tr0 := populateKeysModel nameOf tr
      { tr0 with
          keys := tr0.keys.map (fun k =>
            { k with metatype_relationship_key_id := none, metatype_key_id := none })
          metatype_id := none
          metatype_relationship_pair_id := none }
    else tr
  { tr1 with
      type_mapping_id := none
      id := none
      container_id := none
      data_source_id := none
      shape_hash := none
      created_by := none
      created_at := none
      modified_by := none
      modified_at := none }

/-- prepareForImport (part_003 lines 359-405). -/
def prepareForImport (nameOf : String → Option String) (typeMapping : TypeMappingObj)
    (separateContainer : Bool) : TypeMappingObj :=
  let tm1 := { typeMapping with
    transformations := typeMapping.transformations.map
      (fun ts : List Transformation =>
        ts.map (prepareTransformation nameOf separateContainer)) }
  let tm2 := if separateContainer then { tm1 with container_id := none } else tm1
  { tm2 with
      id := none
      data_source_id := none
      created_at := none
      created_by := none
      modified_at := none
      modified_by := none }

/-- Field assignments importToDataSource performs on the prepared mapping
(part_003 lines 332-334). -/
def importAssign (targetSourceID targetContainerID : String) (tm : TypeMappingObj) :
    TypeMappingObj :=
  { tm with
      data_source_id := some targetSourceID
      container_id := some targetContainerID
      active := false }

/-- The claim of C8 for the mapping-level fields: all identity fields of the
mapping, the shape hash included, are cleared. -/
def mappingIdentityCleared (tm : TypeMappingObj) : Prop :=
  tm.id = none ∧ tm.container_id = none ∧ tm.data_source_id = none ∧ tm.shape_hash = none ∧
    tm.created_at = none ∧ tm.created_by = none ∧ tm.modified_at = none ∧ tm.modified_by = none

def mappingWithHash : TypeMappingObj :=
  { id := some "7", container_id := some "c1", data_source_id := some "d1",
    shape_hash := some "abc", active := true, created_at := some "t0", created_by := some "u",
    modified_at := some "t1", modified_by := some "u", transformations := none,
    removedTransformations := none, validationFails := false }

/-- C8 counterexample: prepareForImport with a separate destination container
clears every mapping identity field except the mapping-level shape hash,
which survives unchanged (part_003 lines 393-402 never assign it), so the
claim that all identity fields including the shape hash are cleared fails. -/
theorem prepareForImport_cex :
    ¬ mappingIdentityCleared (prepareForImport (fun _ => none) mappingWithHash true) ∧
      (prepareForImport (fun _ => none) mappingWithHash true).shape_hash = some "abc" := by
  constructor
  · intro h
    have := h.2.2.2.1
    simp [prepareForImport, mappingWithHash] at this
  · rfl

theorem prepareTransformation_keys_sep (nameOf : String → Option String)
    (tr0 : Transformation) :
    (prepareTransformation nameOf true tr0).keys =
      (populateKeysModel nameOf tr0).keys.map
        (fun k => { k with metatype_relationship_key_id := none, metatype_key_id := none }) :=
  rfl

/-- C8, corrected: prepareForImport into a separate destination container
clears the mapping id, container id, data-source id and audit fields, and on
every transformation clears the ids, the container and data-source ids, the
metatype and relationship-pair ids, the key ids, the shape hash and the audit
fields; the mapping-level shape hash however is retained, not cleared; and the import
path then assigns the target data source and container and deactivates
the mapping, so no identity field of the original mapping except its shape
hash appears in the imported result. -/
theorem prepareForImport_amended (nameOf : String → Option String) (tm : TypeMappingObj) :
    (prepareForImport nameOf tm true).id = none ∧
      (prepareForImport nameOf tm true).container_id = none ∧
      (prepareForImport nameOf tm true).data_source_id = none ∧
      (prepareForImport nameOf tm true).created_at = none ∧
      (prepareForImport nameOf tm true).created_by = none ∧
      (prepareForImport nameOf tm true).modified_at = none ∧
      (prepareForImport nameOf tm true).modified_by = none ∧
      (prepareForImport nameOf tm true).shape_hash = tm.shape_hash ∧
      (∀ tr ∈ (prepareForImport nameOf tm true).transformations.getD [],
        tr.id = none ∧ tr.type_mapping_id = none ∧ tr.container_id = none ∧
          tr.data_source_id = none ∧ tr.shape_hash = none ∧ tr.metatype_id = none ∧
          tr.metatype_relationship_pair_id = none ∧ tr.created_at = none ∧
          tr.created_by = none ∧ tr.modified_at = none ∧ tr.modified_by = none ∧
          ∀ k ∈ tr.keys, k.metatype_key_id = none ∧ k.metatype_relationship_key_id = none) ∧
      (∀ src cont,
        (importAssign src cont (prepareForImport nameOf tm true)).container_id = some cont ∧
          (importAssign src cont (prepareForImport nameOf tm true)).data_source_id = some src ∧
          (importAssign src cont (prepareForImport nameOf tm true)).active = false) := by
  refine ⟨rfl, rfl, rfl, rfl, rfl, rfl, rfl, rfl, ?_, fun src cont => ⟨rfl, rfl, rfl⟩⟩
  intro tr htr
  unfold prepareForImport at htr
  cases ht : tm.transformations with
  | none =>
    rw [ht] at htr
    simp at htr
  | some ts =>
    rw [ht] at htr
    simp only [Option.map_some] at htr
    obtain ⟨tr0, _, rfl⟩ := List.mem_map.mp htr
    refine ⟨rfl, rfl, rfl, rfl, rfl, rfl, rfl, rfl, rfl, rfl, rfl, ?_⟩
    intro k hk
    rw [prepareTransformation_keys_sep] at hk
    obtain ⟨k0, _, rfl⟩ := List.mem_map.mp hk
    exact ⟨rfl, rfl⟩

def keyWithIDs : TransformationKey :=
  { metatype_key_id := some "k1", metatype_relationship_key_id := some "k2",
    key_name := none }

def trWithIDs : Transformation :=
  { id := some "t1", type_mapping_id := some "7", container_id := some "c1",
    data_source_id := some "d1", shape_hash := some "abc", metatype_id := some "m1",
    metatype_relationship_pair_id := some "p1", metatype_name := none,
    metatype_relationship_pair_name := none, created_at := some "x", created_by := some "u",
    modified_at := some "x", modified_by := some "u", keys := [keyWithIDs],
    validationFails := false }

def mappingForImport : TypeMappingObj :=
  { mappingWithHash with transformations := some [trWithIDs] }

/-- C8 witness: the amended theorem applied to a concrete mapping carrying
one fully identified transformation. -/
theorem prepareForImport_amended_witness :
    (prepareForImport (fun _ => none) mappingForImport true).id = none ∧
      (prepareTransformation (fun _ => none) true trWithIDs).metatype_id = none ∧
      (prepareTransformation (fun _ => none) true trWithIDs).shape_hash = none := by
  obtain ⟨h1, h2, h3, h4, h5, h6, h7, h8, htr, himp⟩ :=
    prepareForImport_amended (fun _ => none) mappingForImport
  have hm := htr (prepareTransformation (fun _ => none) true trWithIDs)
    (by simp [prepareForImport, mappingForImport, mappingWithHash])
  exact ⟨h1, hm.2.2.2.2.2.1, hm.2.2.2.2.1⟩

/-! ## Changelist approval revocation
(changelist_repository.ts lines 71-75, src/unnamed/part_001 lines 78-82,
src/unnamed/part_002 setStatusStatement) -/

structure ChangelistRow where
  id : String
  status : String
  modified_by : Option String
  deriving DecidableEq

structure ApprovalRow where
  changelist_id : String
  approver_id : String
  deriving DecidableEq

structure VersioningDB where
  changelists : List ChangelistRow
  approvals : List ApprovalRow
  deriving DecidableEq

/-- SetStatus of the changelist mapper (part_002 lines 131-136): an update of
status, modified fields on the row with the given id. -/
def setStatusDB (db : VersioningDB) (id userID status : String) : VersioningDB :=
  { db with
      changelists := db.changelists.map (fun r =>
        if r.id = id then { r with status := status, modified_by := some userID }
        else r) }

/-- Modelled from the spec: ChangelistApprovalMapper.DeleteByChangelist is not
under src; sections 4.4 and 6 describe it as the hard deletion of every
approval record of the changelist. The model removes those rows from the
approvals table. -/
def deleteApprovalsByChangelist (db : VersioningDB) (changelistID : String) : VersioningDB :=
  { db with approvals := db.approvals.filter (fun a => a.changelist_id != changelistID) }

/-- revokeApproval (changelist_repository.ts lines 71-75): set the changelist
status to rejected, then delete its approvals. -/
def revokeApprovalSim (db : VersioningDB) (changelistID approverID : String) : VersioningDB :=
  deleteApprovalsByChangelist (setStatusDB db changelistID approverID "rejected") changelistID

theorem setStatusDB_mem (db : VersioningDB) (id userID status : String)
    (r : ChangelistRow) (hr : r ∈ (setStatusDB db id userID status).changelists) :
    (r.id = id → r.status = status) ∧ (r.id ≠ id → r ∈ db.changelists) := by
  simp only [setStatusDB, List.mem_map] at hr
  obtain ⟨r0, hr0, rfl⟩ := hr
  by_cases h0 : r0.id = id
  · constructor
    · intro _
      simp [h0]
    · intro hne
      exact absurd (by simp [h0]) hne
  · constructor
    · intro heq
      simp [h0] at heq
    · intro _
      simpa [h0] using hr0

/-- C9, confirmed: after revokeApproval no approval record of the changelist
remains, the surviving approval rows are exactly the untouched original rows
of other changelists (a hard delete, no soft-delete flag and no mutation),
and the changelist row is reset to the rejected status. -/
theorem revokeApproval_spec (db : VersioningDB) (cid uid : String) :
    (∀ a ∈ (revokeApprovalSim db cid uid).approvals, a.changelist_id ≠ cid) ∧
      (∀ a, a ∈ (revokeApprovalSim db cid uid).approvals ↔
        a ∈ db.approvals ∧ a.changelist_id ≠ cid) ∧
      (∀ r ∈ (revokeApprovalSim db cid uid).changelists, r.id = cid →
        r.status = "rejected") ∧
      (∀ r ∈ (revokeApprovalSim db cid uid).changelists, r.id ≠ cid → r ∈ db.changelists) := by
  refine ⟨?_, ?_, ?_, ?_⟩
  · intro a ha
    simp [revokeApprovalSim, deleteApprovalsByChangelist, setStatusDB, List.mem_filter] at ha
    exact ha.2
  · intro a
    simp [revokeApprovalSim, deleteApprovalsByChangelist, setStatusDB, List.mem_filter]
  · intro r hr hid
    exact (setStatusDB_mem db cid uid "rejected" r hr).1 hid
  · intro r hr hid
    exact (setStatusDB_mem db cid uid "rejected" r hr).2 hid

def dbWithApprovals : VersioningDB :=
  { changelists := [{ id := "cl1", status := "approved", modified_by := none }],
    approvals := [{ changelist_id := "cl1", approver_id := "u1" },
      { changelist_id := "cl2", approver_id := "u2" }] }

/-- C9 witness: the revocation theorem applied to a concrete database holding
one approved changelist with one approval plus one unrelated approval. -/
theorem revokeApproval_spec_witness :
    (∀ a ∈ (revokeApprovalSim dbWithApprovals "cl1" "u1").approvals, a.changelist_id ≠ "cl1") ∧
      (∀ r ∈ (revokeApprovalSim dbWithApprovals "cl1" "u1").changelists, r.id = "cl1" →
        r.status = "rejected") := by
  have h := revokeApproval_spec dbWithApprovals "cl1" "u1"
  exact ⟨h.1, h.2.2.1⟩
